import Mathlib

/-!
Verification of the geometric core of the pareto-approximator repository
(Point / Hyperplane / Facet), shallowly embedded in Lean 4.

Conventions of the embedding:
* C++ `double` values are modelled as exact rationals (`ℚ`).  The source
  compares doubles with exact `==`, so all branch conditions translate
  directly.  The single place where IEEE-754 special values matter
  (division by zero inside `Hyperplane::ratioDistance`) is modelled
  explicitly with the `FVal` type (finite / +inf / -inf / NaN), following
  IEEE semantics for `x / 0` and for `std::max` (whose comparison is
  false on NaN).
* functions that can throw return `Except Exc _`; `assert` failures are
  modelled as the distinguished error `Exc.assertionFailure` (a C++
  assert aborts the program, so no claim about a successfully finished
  call can hit it).
* `arma::solve` on a square rational system is modelled exactly: it
  succeeds if and only if the matrix is invertible (determinant nonzero),
  returning the unique solution, matching the source comment "either no
  solution or an infinite number of solutions".
-/

namespace ParetoApprox

/-- Exception kinds of the repository (§7 of the spec, exception headers in
the source).  `assertionFailure` models a failed C++ `assert`. -/
inductive Exc where
  | differentDimensions
  | nonExistentCoordinate
  | nonExistentCoefficient
  | nullObject
  | samePoints
  | not2DPoints
  | not2DHyperplanes
  | parallelHyperplanes
  | boundaryFacet
  | infiniteRatioDistance
  | notStrictlyPositivePoint
  | assertionFailure
deriving DecidableEq

/-- Modelled from the spec: `Point.cpp`/`Point.h` are not under `src/` (only
callers and tests are).  A Point is an ordered tuple of real coordinates
with a distinguished null state carrying no coordinates (§3, §4.A). -/
structure Point where
  coords : Option (List ℚ)
deriving DecidableEq

/-- The null Point (`Point::isNull() == true`). -/
def Point.null : Point := ⟨none⟩

/-- Coordinates of a point; a null point has none. -/
def Point.coordList (p : Point) : List ℚ := p.coords.getD []

/-- Modelled from the spec: `Point::isNull()` (§4.A). -/
def Point.isNull (p : Point) : Bool := p.coords.isNone

/-- Modelled from the spec: `Point::dimension()` (§4.A). -/
def Point.dimension (p : Point) : ℕ := p.coordList.length

/-- Modelled from the spec: `Point::isStrictlyPositive()` — every
coordinate strictly positive (§4.A). -/
def Point.IsStrictlyPositive (p : Point) : Prop := ∀ x ∈ p.coordList, 0 < x

instance (p : Point) : Decidable p.IsStrictlyPositive :=
  inferInstanceAs (Decidable (∀ x ∈ p.coordList, 0 < x))

/-- Lexicographic comparison of coordinate lists (used by `std::set<Point>`).
Same-length lists are compared entry by entry. -/
def lexLtList : List ℚ → List ℚ → Bool
  | _, [] => false
  | [], _ :: _ => false
  | a :: as, b :: bs => if a < b then true else if b < a then false else lexLtList as bs

/-- Modelled from the spec: `Point::operator<` is lexicographic (§4.A);
`Point.cpp` is not under `src/`. -/
def Point.lexLt (p q : Point) : Bool := lexLtList p.coordList q.coordList

/-- Dot product of two coordinate lists (truncates at the shorter one, as
the source loops run over indices `0 .. d-1` with both vectors of
length `d` at every call site). -/
def dotList (xs ys : List ℚ) : ℚ := (List.zipWith (· * ·) xs ys).sum

/-- IEEE-style value of one double expression: finite, +inf, -inf or NaN.
Used only for `Hyperplane::ratioDistance`, the one function of the source
that can divide by zero. -/
inductive FVal where
  | fin : ℚ → FVal
  | pinf : FVal
  | ninf : FVal
  | nan : FVal
deriving DecidableEq

/-- IEEE division `x / y` for exact operands: for `y = 0` the result is
+inf, -inf or NaN depending on the sign of `x`. -/
def fdiv (x y : ℚ) : FVal :=
  if y = 0 then (if 0 < x then .pinf else if x < 0 then .ninf else .nan)
  else .fin (x / y)

/-- `std::max(v, 0.0)`, i.e. `(v < 0.0) ? 0.0 : v`; the comparison is false
on NaN, so `std::max(NaN, 0.0) = NaN` and `std::max(-inf, 0.0) = 0.0`. -/
def stdMax0 : FVal → FVal
  | .fin a => .fin (max a 0)
  | .pinf => .pinf
  | .ninf => .fin 0
  | .nan => .nan

/-- A hyperplane `a·x = b` (`Hyperplane.h`): coefficient vector plus
offset. -/
structure Hyperplane where
  coefficients : List ℚ
  b : ℚ
deriving DecidableEq

/-- `Hyperplane::space_dimension()` — the number of coefficients. -/
def Hyperplane.space_dimension (h : Hyperplane) : ℕ := h.coefficients.length

/-- Unchecked coefficient access `coefficients_[i]` (every use in the
source is in bounds). -/
def Hyperplane.coeff (h : Hyperplane) (i : ℕ) : ℚ := h.coefficients.getD i 0

/-- The dot product `a · p` computed by the loops of
`Hyperplane::ratioDistance` and `Hyperplane::parallelThrough`. -/
def hpDot (h : Hyperplane) (p : Point) : ℚ := dotList h.coefficients p.coordList

/-- `Hyperplane::operator==` (`Hyperplane.cpp:439-450`): same dimension and
cross-scaled coefficients `a_i * b' = a'_i * b` for every `i`. -/
def Hyperplane.Equal (h1 h2 : Hyperplane) : Prop :=
  h1.space_dimension = h2.space_dimension ∧
    ∀ i < h1.space_dimension, h1.coeff i * h2.b = h2.coeff i * h1.b

instance (h1 h2 : Hyperplane) : Decidable (h1.Equal h2) :=
  inferInstanceAs (Decidable (_ ∧ _))

/-- `Hyperplane::isParallel` (`Hyperplane.cpp:567-577`): same dimension and
`a_i * a'_0 = a'_i * a_0` for every `i`. -/
def Hyperplane.IsParallel (h1 h2 : Hyperplane) : Prop :=
  h1.space_dimension = h2.space_dimension ∧
    ∀ i < h1.space_dimension, h1.coeff i * h2.coeff 0 = h2.coeff i * h1.coeff 0

instance (h1 h2 : Hyperplane) : Decidable (h1.IsParallel h2) :=
  inferInstanceAs (Decidable (_ ∧ _))

/-- `Hyperplane::ratioDistance` (`Hyperplane.cpp:512-523`): dimension check,
then `std::max((b - a·p) / (a·p), 0.0)` — the division may be by zero,
hence the `FVal` result. -/
def Hyperplane.ratioDistance (h : Hyperplane) (p : Point) : Except Exc FVal :=
  if h.space_dimension ≠ p.dimension then .error .differentDimensions
  else .ok (stdMax0 (fdiv (h.b - hpDot h p) (hpDot h p)))

/-- `Hyperplane::parallelThrough` (`Hyperplane.cpp:539-547`): same
coefficients, new offset `a·p`.  Accessing `p[i]` for `i ≥ p.dimension()`
fails with NonExistentCoordinate (spec §4.A), which happens exactly when
`p` has fewer coordinates than the hyperplane has coefficients. -/
def Hyperplane.parallelThrough (h : Hyperplane) (p : Point) : Except Exc Hyperplane :=
  if p.dimension < h.space_dimension then .error .nonExistentCoordinate
  else .ok ⟨h.coefficients, hpDot h p⟩

/-- `Hyperplane::intersection` (`Hyperplane.cpp:594-610`): only for two
2-hyperplanes, Cramer solution of the 2x2 system. -/
def Hyperplane.intersection (h1 h2 : Hyperplane) : Except Exc Point :=
  if h1.space_dimension ≠ 2 ∨ h2.space_dimension ≠ 2 then .error .not2DHyperplanes
  else if h1.IsParallel h2 then .error .parallelHyperplanes
  else
    let x0 := (h1.coeff 1 * h2.b - h1.b * h2.coeff 1) /
      (h1.coeff 1 * h2.coeff 0 - h1.coeff 0 * h2.coeff 1)
    let y0 := if h1.coeff 1 ≠ 0 then (h1.b - h1.coeff 0 * x0) / h1.coeff 1
      else (h2.b - h2.coeff 0 * x0) / h2.coeff 1
    .ok ⟨some [x0, y0]⟩

/-- `Hyperplane::init` (`Hyperplane.cpp:259-287`).  The source asserts that
the point set holds exactly two points ("temporarily works only for two
points"); with more or fewer points the assert aborts.  Coordinate
accesses `p1[1]`, `p2[1]` fail NonExistentCoordinate below dimension 2. -/
def Hyperplane.init (ps : List Point) : Except Exc Hyperplane :=
  match ps with
  | [p1, p2] =>
    if p1.dimension < 2 ∨ p2.dimension < 2 then .error .nonExistentCoordinate
    else
      let p10 := p1.coordList.getD 0 0
      let p11 := p1.coordList.getD 1 0
      let p20 := p2.coordList.getD 0 0
      let p21 := p2.coordList.getD 1 0
      if p11 ≠ p21 then
        let a2 := (p20 - p10) / (p11 - p21)
        .ok ⟨[1, a2], p10 + a2 * p11⟩
      else
        .ok ⟨[0, 1], p11⟩
  | _ => .error .assertionFailure

/-- Insertion into a `std::set<Point>` ordered by `Point::operator<`:
sorted, duplicates (equivalent elements) dropped. -/
def insertPointSorted (p : Point) : List Point → List Point
  | [] => [p]
  | q :: qs =>
    if p.lexLt q then p :: q :: qs
    else if q.lexLt p then q :: insertPointSorted p qs
    else q :: qs

/-- Building a `std::set<Point>` from a range of points. -/
def setOfPoints (ps : List Point) : List Point :=
  ps.foldl (fun acc p => insertPointSorted p acc) []

/-- `Hyperplane::Hyperplane(const Point &, const Point &)`
(`Hyperplane.cpp:189-200`): SamePoints check, 2D check, then `init` on the
ordered set `{p1, p2}`. -/
def Hyperplane.ofTwoPoints (p1 p2 : Point) : Except Exc Hyperplane :=
  if p1.coords = p2.coords then .error .samePoints
  else if p1.dimension ≠ 2 ∨ p2.dimension ≠ 2 then .error .not2DPoints
  else Hyperplane.init (setOfPoints [p1, p2])

/-- `Hyperplane::Hyperplane(const Point *, const Point *)`
(`Hyperplane.cpp:238-242`): builds a `std::set<Point>` from the range and
calls `init`. -/
def Hyperplane.ofPoints (ps : List Point) : Except Exc Hyperplane :=
  Hyperplane.init (setOfPoints ps)

/-- Executable determinant of a square rational matrix, by Laplace
expansion along the first row (the embedding's stand-in for
`arma::det`); proved equal to Mathlib's `Matrix.det` below. -/
def detQ : (n : ℕ) → Matrix (Fin n) (Fin n) ℚ → ℚ
  | 0, _ => 1
  | n + 1, M =>
    ∑ j : Fin (n + 1),
      (-1) ^ (j : ℕ) * M 0 j * detQ n (Matrix.of fun r c => M r.succ (j.succAbove c))

/-- The matrix `A` with column `i` replaced by the vector `c` (used for the
Cramer solution of the linear system). -/
def updateColQ {d : ℕ} (A : Matrix (Fin d) (Fin d) ℚ) (i : Fin d) (c : Fin d → ℚ) :
    Matrix (Fin d) (Fin d) ℚ :=
  Matrix.of fun r k => if k = i then c r else A r k

/-- `arma::solve` on a square system, modelled exactly: succeeds iff the
matrix is invertible, in which case it returns the (then unique) solution
via Cramer's rule; on a singular system ("either no solution or an
infinite number of solutions") it reports failure. -/
def solveSquare {d : ℕ} (A : Matrix (Fin d) (Fin d) ℚ) (c : Fin d → ℚ) :
    Option (Fin d → ℚ) :=
  if detQ d A = 0 then none
  else some (fun i => detQ d (updateColQ A i c) / detQ d A)

/-- Modelled from the spec: `PointAndSolution.h` is not under `src/`.  A
vertex of a facet: the objective-space point, the weight vector that
produced it, and the null flag; the solution payload is irrelevant to the
geometry and omitted (§3, §4.D).  `dimension()` is the contained point's
dimension. -/
structure PointAndSolution where
  point : Point
  weightsUsed : List ℚ
  nullFlag : Bool
deriving DecidableEq

/-- Modelled from the spec: `PointAndSolution::isNull()` (§4.D). -/
def PointAndSolution.isNull (v : PointAndSolution) : Bool := v.nullFlag

/-- Modelled from the spec: `PointAndSolution::dimension()` — the
dimension of the contained point (§3, §4.D). -/
def PointAndSolution.dimension (v : PointAndSolution) : ℕ := v.point.dimension

/-- Default used only to give `List.getD` a value; every indexed access in
the source is in bounds at its call site. -/
def padDefault : PointAndSolution := ⟨Point.null, [], true⟩

/-- A constructed `Facet<S>` (`Facet.h`): dimension, vertices, normal, the
stored bound and the boundary flag. -/
structure Facet where
  spaceDimension : ℕ
  vertices : List PointAndSolution
  normal : List ℚ
  localApproximationErrorUpperBound : ℚ
  isBoundaryFacet : Bool
deriving DecidableEq

/-- The weight matrix `W` of `Facet<S>::computeLowerDistalPoint`
(`Facet.cpp:369-408`): row `i` is the `i`-th vertex's weight vector. -/
def ldpMatrix (d : ℕ) (vs : List PointAndSolution) : Matrix (Fin d) (Fin d) ℚ :=
  Matrix.of fun i j => (vs.getD i padDefault).weightsUsed.getD j 0

/-- The right-hand side `b` of the same system: `b_i = w_i · v_i`. -/
def ldpRhs (d : ℕ) (vs : List PointAndSolution) : Fin d → ℚ :=
  fun i => dotList (vs.getD i padDefault).weightsUsed (vs.getD i padDefault).point.coordList

/-- `Facet<S>::computeLowerDistalPoint` (`Facet.cpp:369-408`): assert that
every vertex carries a weight vector of length `d`, build `W` and `b`,
solve; a unique solution becomes the LDP, otherwise the null Point. -/
def computeLowerDistalPoint (d : ℕ) (vs : List PointAndSolution) : Except Exc Point :=
  if vs.any (fun v => v.weightsUsed.length ≠ d) then .error .assertionFailure
  else
    match solveSquare (ldpMatrix d vs) (ldpRhs d vs) with
    | some x => .ok ⟨some ((List.finRange d).map x)⟩
    | none => .ok Point.null

/-- The dot product `normal · p` of `Facet<S>::ratioDistance`
(`Facet.cpp:444-479`). -/
def facetDot (d : ℕ) (normal : List ℚ) (p : Point) : ℚ :=
  ∑ i ∈ Finset.range d, normal.getD i 0 * p.coordList.getD i 0

/-- The facet offset `normal · v_0` of `Facet<S>::ratioDistance`, computed
from the first vertex. -/
def facetOffset (d : ℕ) (vs : List PointAndSolution) (normal : List ℚ) : ℚ :=
  ∑ i ∈ Finset.range d, normal.getD i 0 * (vs.getD 0 padDefault).point.coordList.getD i 0

/-- `Facet<S>::ratioDistance` (`Facet.cpp:444-479`): null check, dimension
check, strict-positivity check, `assert(spaceDimension() > 0)`, then the
three-way branch on `n·p` versus the offset. -/
def facetRatioDistance (d : ℕ) (vs : List PointAndSolution) (normal : List ℚ)
    (p : Point) : Except Exc ℚ :=
  if p.isNull then .error .nullObject
  else if d ≠ p.dimension then .error .differentDimensions
  else if ¬ p.IsStrictlyPositive then .error .notStrictlyPositivePoint
  else if d = 0 then .error .assertionFailure
  else if facetDot d normal p = facetOffset d vs normal then .ok 0
  else if facetDot d normal p = 0 then .error .infiniteRatioDistance
  else .ok (max ((facetOffset d vs normal - facetDot d normal p) / facetDot d normal p) 0)

/-- `Facet<S>::ratioDistance` on a constructed facet. -/
def Facet.ratioDistance (f : Facet) (p : Point) : Except Exc ℚ :=
  facetRatioDistance f.spaceDimension f.vertices f.normal p

/-- The body of
`Facet<S>::computeAndSetLocalApproximationErrorUpperBoundAndIsBoundaryFacet`
(`Facet.cpp:617-643`), returning the pair
(localApproximationErrorUpperBound_, isBoundaryFacet_). -/
def computeBoundAndFlag (d : ℕ) (vs : List PointAndSolution) (normal : List ℚ) :
    Except Exc (ℚ × Bool) :=
  match computeLowerDistalPoint d vs with
  | .error e => .error e
  | .ok ldp =>
    if ldp.isNull = false then
      if ldp.IsStrictlyPositive then
        match facetRatioDistance d vs normal ldp with
        | .error e => .error e
        | .ok bound => .ok (bound, false)
      else .ok (-1, true)
    else .ok (-2, true)

/-- The vertex validation loop shared by both `Facet` constructors
(`Facet.cpp:81-87` and `Facet.cpp:158-164`): per vertex, first the null
check, then the dimension check. -/
def validateVertices (d : ℕ) : List PointAndSolution → Except Exc Unit
  | [] => .ok ()
  | v :: rest =>
    if v.isNull || v.point.isNull then .error .nullObject
    else if v.dimension ≠ d then .error .differentDimensions
    else validateVertices d rest

/-- `Facet<S>::computeAndSetFacetNormal` (`Facet.cpp:580-601`): normal
component `i` is the determinant of the vertex-coordinate matrix with
column `i` replaced by the appended column of ones; if the all-positive
normal is preferred and every component is nonpositive, all signs flip. -/
def computeFacetNormal (d : ℕ) (vs : List PointAndSolution)
    (preferPositiveNormalVector : Bool) : List ℚ :=
  let normal := (List.range d).map fun i =>
    detQ d (Matrix.of fun r c : Fin d =>
      if (c : ℕ) = i then 1 else (vs.getD r padDefault).point.coordList.getD c 0)
  if preferPositiveNormalVector = true ∧ ∀ x ∈ normal, x ≤ 0 then
    normal.map (fun x => -x)
  else normal

/-- The compute-normal `Facet` constructor (`Facet.cpp:64-98`):
`d := firstVertex->dimension()`, the simplicial assert, vertex validation,
normal computation, then bound and boundary flag. -/
def Facet.ofVertices (vs : List PointAndSolution) (preferPositiveNormalVector : Bool) :
    Except Exc Facet :=
  let d := (vs.headD padDefault).dimension
  if vs.length ≠ d then .error .assertionFailure
  else
    match validateVertices d vs with
    | .error e => .error e
    | .ok _ =>
      match computeBoundAndFlag d vs (computeFacetNormal d vs preferPositiveNormalVector) with
      | .error e => .error e
      | .ok (bound, flag) =>
        .ok ⟨d, vs, computeFacetNormal d vs preferPositiveNormalVector, bound, flag⟩

/-- The supplied-normal `Facet` constructor (`Facet.cpp:139-173`):
`d := distance(firstElemOfFacetNormal, lastElemOfFacetNormal)`, the
simplicial assert, vertex validation, then bound and boundary flag. -/
def Facet.ofVerticesAndNormal (vs : List PointAndSolution) (normal : List ℚ) :
    Except Exc Facet :=
  let d := normal.length
  if vs.length ≠ d then .error .assertionFailure
  else
    match validateVertices d vs with
    | .error e => .error e
    | .ok _ =>
      match computeBoundAndFlag d vs normal with
      | .error e => .error e
      | .ok (bound, flag) => .ok ⟨d, vs, normal, bound, flag⟩

/-- `Facet<S>::getLocalApproximationErrorUpperBound` (`Facet.cpp:228-237`):
throws BoundaryFacetException on a boundary facet, otherwise returns the
stored bound. -/
def Facet.getLocalApproximationErrorUpperBound (f : Facet) : Except Exc ℚ :=
  if f.isBoundaryFacet then .error .boundaryFacet
  else .ok f.localApproximationErrorUpperBound

/-- Three points are collinear (lie on one common line): the difference
vectors from the first point are linearly dependent. -/
def Collinear3 (a b c : List ℚ) : Prop :=
  ∃ s t : ℚ, ¬(s = 0 ∧ t = 0) ∧
    ∀ i < 3, s * (b.getD i 0 - a.getD i 0) + t * (c.getD i 0 - a.getD i 0) = 0

/-- A concrete well-formed 2D facet input: vertices `(1,5)` with weights
`(1,0)` and `(5,1)` with weights `(0,1)` (the axis-aligned seeding of the
driver). -/
def vsW : List PointAndSolution :=
  [⟨⟨some [1, 5]⟩, [1, 0], false⟩, ⟨⟨some [5, 1]⟩, [0, 1], false⟩]

/-- The facet the compute-normal constructor builds from `vsW`. -/
def fW : Facet := ⟨2, vsW, [4, 4], 2, false⟩

/-- A concrete vertex list whose two vertices share the weight vector
`(1,1)`: the LDP system `W·x = c` is singular (both rows equal). -/
def vsC2 : List PointAndSolution :=
  [⟨⟨some [1, 2]⟩, [1, 1], false⟩, ⟨⟨some [2, 1]⟩, [1, 1], false⟩]

/-- Three collinear 3D vertices `(1,1,1)`, `(2,2,2)`, `(3,3,3)` with the
three axis-aligned weight vectors: the weight system is the identity, so
an LDP exists even though the points are collinear. -/
def vsC5 : List PointAndSolution :=
  [⟨⟨some [1, 1, 1]⟩, [1, 0, 0], false⟩, ⟨⟨some [2, 2, 2]⟩, [0, 1, 0], false⟩,
    ⟨⟨some [3, 3, 3]⟩, [0, 0, 1], false⟩]

/-- The facet the compute-normal constructor builds from `vsC5`: all-zero
normal, LDP `(1,2,3)`, bound `0`, not a boundary facet. -/
def fC5 : Facet := ⟨3, vsC5, [0, 0, 0], 0, false⟩



theorem detQ_eq_det : ∀ (n : ℕ) (M : Matrix (Fin n) (Fin n) ℚ), detQ n M = M.det
  | 0, _ => by rw [detQ, Matrix.det_fin_zero]
  | n + 1, M => by
    rw [Matrix.det_succ_row_zero, detQ]
    refine Finset.sum_congr rfl fun j _ => ?_
    rw [detQ_eq_det n]
    rfl


theorem detQ_two (M : Matrix (Fin 2) (Fin 2) ℚ) :
    detQ 2 M = M 0 0 * M 1 1 - M 0 1 * M 1 0 := by
  rw [detQ_eq_det, Matrix.det_fin_two]


theorem detQ_three (M : Matrix (Fin 3) (Fin 3) ℚ) :
    detQ 3 M = M 0 0 * M 1 1 * M 2 2 - M 0 0 * M 1 2 * M 2 1 - M 0 1 * M 1 0 * M 2 2 +
      M 0 1 * M 1 2 * M 2 0 + M 0 2 * M 1 0 * M 2 1 - M 0 2 * M 1 1 * M 2 0 := by
  rw [detQ_eq_det, Matrix.det_fin_three]


theorem updateColQ_eq {d : ℕ} (A : Matrix (Fin d) (Fin d) ℚ) (i : Fin d) (c : Fin d → ℚ) :
    updateColQ A i c = A.updateColumn i c := by
  ext r k
  rw [updateColQ, Matrix.updateColumn_apply]
  rfl


theorem solveSquare_mulVec {d : ℕ} (A : Matrix (Fin d) (Fin d) ℚ) (c : Fin d → ℚ)
    (x : Fin d → ℚ) (hx : solveSquare A c = some x) : A.mulVec x = c := by
  have hdet : A.det ≠ 0 := by
    intro h0
    rw [solveSquare, if_pos (by rw [detQ_eq_det]; exact h0)] at hx
    exact Option.noConfusion hx
  rw [solveSquare, if_neg (by rw [detQ_eq_det]; exact hdet)] at hx
  have hx' : x = A.det⁻¹ • Matrix.cramer A c := by
    funext i
    have hxi := congrFun (Option.some.inj hx).symm i
    rw [hxi]
    simp only [detQ_eq_det, updateColQ_eq, Pi.smul_apply, Matrix.cramer_apply, smul_eq_mul]
    rw [div_eq_inv_mul]
  subst hx'
  rw [Matrix.mulVec_smul, Matrix.mulVec_cramer, smul_smul, inv_mul_cancel₀ hdet, one_smul]


theorem mulVec_inj_of_det_ne_zero {d : ℕ} (A : Matrix (Fin d) (Fin d) ℚ)
    (hdet : A.det ≠ 0) (x y : Fin d → ℚ) (hxy : A.mulVec x = A.mulVec y) : x = y := by
  by_contra hne
  have hker : A.mulVec (x - y) = 0 := by
    rw [Matrix.mulVec_sub, hxy, sub_self]
  exact hdet (Matrix.exists_mulVec_eq_zero_iff.mp ⟨x - y, sub_ne_zero_of_ne hne, hker⟩)


theorem solveSquare_some_of_det_ne_zero {d : ℕ} (A : Matrix (Fin d) (Fin d) ℚ)
    (c : Fin d → ℚ) (hdet : A.det ≠ 0) :
    solveSquare A c = some (fun i => detQ d (updateColQ A i c) / detQ d A) := by
  rw [solveSquare, if_neg (by rw [detQ_eq_det]; exact hdet)]


theorem solveSquare_none_of_det_eq_zero {d : ℕ} (A : Matrix (Fin d) (Fin d) ℚ)
    (c : Fin d → ℚ) (hdet : A.det = 0) : solveSquare A c = none := by
  rw [solveSquare, if_pos (by rw [detQ_eq_det]; exact hdet)]


theorem not_unique_of_det_eq_zero {d : ℕ} (A : Matrix (Fin d) (Fin d) ℚ)
    (c : Fin d → ℚ) (hdet : A.det = 0) :
    ¬ ∃ x, A.mulVec x = c ∧ ∀ y, A.mulVec y = c → y = x := by
  rintro ⟨x, hx, hu⟩
  obtain ⟨v, hv0, hv⟩ := Matrix.exists_mulVec_eq_zero_iff.mpr hdet
  have hxv : x + v = x := hu (x + v) (by rw [Matrix.mulVec_add, hx, hv, add_zero])
  exact hv0 (add_left_cancel (hxv.trans (add_zero x).symm))

/-! ### Claim C9 -/

/-- Claim C9: for every Hyperplane `h` and Point `p` of the same dimension,
`parallelThrough(p)` succeeds with the same coefficients and offset
`b' = a·p`, and `isParallel(parallelThrough(p))` always holds. -/
theorem C9_parallelThrough (h : Hyperplane) (p : Point)
    (hdim : p.dimension = h.space_dimension) :
    ∃ h2, h.parallelThrough p = .ok h2 ∧ h2.coefficients = h.coefficients ∧
      h2.b = hpDot h p ∧ h.IsParallel h2 := by
  refine ⟨⟨h.coefficients, hpDot h p⟩, ?_, rfl, rfl, rfl, fun i _ => rfl⟩
  rw [Hyperplane.parallelThrough, if_neg (by omega)]

/-- Witness for C9 at a concrete hyperplane and point. -/
theorem C9_witness :
    Point.dimension ⟨some [4, 5]⟩ = Hyperplane.space_dimension ⟨[1, 2], 3⟩ ∧
      ∃ h2, Hyperplane.parallelThrough ⟨[1, 2], 3⟩ ⟨some [4, 5]⟩ = .ok h2 ∧
        h2.coefficients = [1, 2] ∧ h2.b = hpDot ⟨[1, 2], 3⟩ ⟨some [4, 5]⟩ ∧
        Hyperplane.IsParallel ⟨[1, 2], 3⟩ h2 :=
  ⟨rfl, C9_parallelThrough ⟨[1, 2], 3⟩ ⟨some [4, 5]⟩ rfl⟩

/-! ### Claim C6 -/

theorem mul_cross_chain (a1 b1 a2 b2 a3 b3 : ℚ) (hb2 : b2 ≠ 0)
    (h12 : a1 * b2 = a2 * b1) (h23 : a2 * b3 = a3 * b2) : a1 * b3 = a3 * b1 := by
  refine mul_right_cancel₀ hb2 ?_
  calc a1 * b3 * b2 = a1 * b2 * b3 := by ring
  _ = a2 * b1 * b3 := by rw [h12]
  _ = a2 * b3 * b1 := by ring
  _ = a3 * b2 * b1 := by rw [h23]
  _ = a3 * b1 * b2 := by ring

/-- Counterexample to claim C6: the all-zero hyperplane `0·x1 + 0·x2 = 0`
is operator==-equal and isParallel to every 2D hyperplane, so neither
relation is transitive on all Hyperplane instances. -/
theorem C6_counterexample :
    Hyperplane.Equal ⟨[1, 0], 1⟩ ⟨[0, 0], 0⟩ ∧
      Hyperplane.Equal ⟨[0, 0], 0⟩ ⟨[0, 1], 1⟩ ∧
      ¬ Hyperplane.Equal ⟨[1, 0], 1⟩ ⟨[0, 1], 1⟩ ∧
      Hyperplane.IsParallel ⟨[1, 0], 1⟩ ⟨[0, 0], 0⟩ ∧
      Hyperplane.IsParallel ⟨[0, 0], 0⟩ ⟨[0, 1], 1⟩ ∧
      ¬ Hyperplane.IsParallel ⟨[1, 0], 1⟩ ⟨[0, 1], 1⟩ := by
  refine ⟨⟨rfl, ?_⟩, ⟨rfl, ?_⟩, ?_, ⟨rfl, ?_⟩, ⟨rfl, ?_⟩, ?_⟩
  · intro i hi
    norm_num [Hyperplane.space_dimension] at hi
    interval_cases i <;> norm_num [Hyperplane.coeff]
  · intro i hi
    norm_num [Hyperplane.space_dimension] at hi
    interval_cases i <;> norm_num [Hyperplane.coeff]
  · rintro ⟨-, he⟩
    have h0 := he 0 (by norm_num [Hyperplane.space_dimension])
    norm_num [Hyperplane.coeff] at h0
  · intro i hi
    norm_num [Hyperplane.space_dimension] at hi
    interval_cases i <;> norm_num [Hyperplane.coeff]
  · intro i hi
    norm_num [Hyperplane.space_dimension] at hi
    interval_cases i <;> norm_num [Hyperplane.coeff]
  · rintro ⟨-, he⟩
    have h1 := he 1 (by norm_num [Hyperplane.space_dimension])
    norm_num [Hyperplane.coeff] at h1

/-- Claim C6 amended: operator== and isParallel are reflexive and
symmetric; each is transitive provided the middle hyperplane is
nondegenerate (for operator==: not all of `a` and `b` zero; for
isParallel: the coefficient vector `a` not all zero).  The all-zero cases
of the counterexample are the only obstruction. -/
theorem C6_amended :
    (∀ h : Hyperplane, h.Equal h) ∧
      (∀ h1 h2 : Hyperplane, h1.Equal h2 → h2.Equal h1) ∧
      (∀ h1 h2 h3 : Hyperplane,
        (h2.b ≠ 0 ∨ ∃ j < h2.space_dimension, h2.coeff j ≠ 0) →
        h1.Equal h2 → h2.Equal h3 → h1.Equal h3) ∧
      (∀ h : Hyperplane, h.IsParallel h) ∧
      (∀ h1 h2 : Hyperplane, h1.IsParallel h2 → h2.IsParallel h1) ∧
      (∀ h1 h2 h3 : Hyperplane,
        (∃ j < h2.space_dimension, h2.coeff j ≠ 0) →
        h1.IsParallel h2 → h2.IsParallel h3 → h1.IsParallel h3) := by
  refine ⟨fun h => ⟨rfl, fun i _ => rfl⟩,
    fun h1 h2 h => ⟨h.1.symm, fun i hi => (h.2 i (h.1 ▸ hi)).symm⟩,
    ?_,
    fun h => ⟨rfl, fun i _ => rfl⟩,
    fun h1 h2 h => ⟨h.1.symm, fun i hi => (h.2 i (h.1 ▸ hi)).symm⟩,
    ?_⟩
  · rintro h1 h2 h3 hmid ⟨hd12, he12⟩ ⟨hd23, he23⟩
    refine ⟨hd12.trans hd23, fun i hi => ?_⟩
    rcases hmid with hb2 | ⟨j, hj, haj⟩
    · exact mul_cross_chain _ _ _ _ _ _ hb2 (he12 i hi) (he23 i (hd12 ▸ hi))
    · by_cases hb2 : h2.b = 0
      · have hb1 : h1.b = 0 := by
          have := he12 j (by omega)
          rw [hb2, mul_zero] at this
          rcases mul_eq_zero.mp this.symm with hc | hc
          · exact absurd hc haj
          · exact hc
        have hb3 : h3.b = 0 := by
          have := he23 j hj
          rw [hb2, mul_zero] at this
          rcases mul_eq_zero.mp this with hc | hc
          · exact absurd hc haj
          · exact hc
        rw [hb1, hb3, mul_zero, mul_zero]
      · exact mul_cross_chain _ _ _ _ _ _ hb2 (he12 i hi) (he23 i (hd12 ▸ hi))
  · rintro h1 h2 h3 ⟨j, hj, haj⟩ ⟨hd12, he12⟩ ⟨hd23, he23⟩
    refine ⟨hd12.trans hd23, fun i hi => ?_⟩
    by_cases h20 : h2.coeff 0 = 0
    · have h10 : h1.coeff 0 = 0 := by
        have := he12 j (by omega)
        rw [h20, mul_zero] at this
        rcases mul_eq_zero.mp this.symm with hc | hc
        · exact absurd hc haj
        · exact hc
      have h30 : h3.coeff 0 = 0 := by
        have := he23 j hj
        rw [h20, mul_zero] at this
        rcases mul_eq_zero.mp this with hc | hc
        · exact absurd hc haj
        · exact hc
      rw [h10, h30, mul_zero, mul_zero]
    · exact mul_cross_chain _ _ _ _ _ _ h20 (he12 i hi) (he23 i (hd12 ▸ hi))

/-- Witness for C6 at concrete hyperplanes: a transitivity instance
through the nondegenerate middle hyperplane `2·x1 + 4·x2 = 6`. -/
theorem C6_witness :
    ((6 : ℚ) ≠ 0 ∨ ∃ j < Hyperplane.space_dimension ⟨[2, 4], 6⟩,
        Hyperplane.coeff ⟨[2, 4], 6⟩ j ≠ 0) ∧
      Hyperplane.Equal ⟨[1, 2], 3⟩ ⟨[2, 4], 6⟩ ∧
      Hyperplane.Equal ⟨[2, 4], 6⟩ ⟨[4, 8], 12⟩ ∧
      Hyperplane.Equal ⟨[1, 2], 3⟩ ⟨[4, 8], 12⟩ := by
  have h12 : Hyperplane.Equal ⟨[1, 2], 3⟩ ⟨[2, 4], 6⟩ := by
    refine ⟨rfl, fun i hi => ?_⟩
    norm_num [Hyperplane.space_dimension] at hi
    interval_cases i <;> norm_num [Hyperplane.coeff]
  have h23 : Hyperplane.Equal ⟨[2, 4], 6⟩ ⟨[4, 8], 12⟩ := by
    refine ⟨rfl, fun i hi => ?_⟩
    norm_num [Hyperplane.space_dimension] at hi
    interval_cases i <;> norm_num [Hyperplane.coeff]
  exact ⟨Or.inl (by norm_num), h12, h23,
    C6_amended.2.2.1 ⟨[1, 2], 3⟩ ⟨[2, 4], 6⟩ ⟨[4, 8], 12⟩ (Or.inl (by norm_num)) h12 h23⟩

/-! ### Claim C3 -/

/-- Counterexample to claim C3: for the hyperplane `x1 - x2 = -1` and the
point `(1,1)` we have `a·p = 0 ≠ b`, yet `ratioDistance` returns the
finite value `0` (the IEEE quotient is `-inf` and `std::max(-inf, 0.0)`
is `0.0`), not `+inf` and not an error. -/
theorem C3_counterexample :
    hpDot ⟨[1, -1], -1⟩ ⟨some [1, 1]⟩ = 0 ∧
      Hyperplane.b ⟨[1, -1], -1⟩ ≠ hpDot ⟨[1, -1], -1⟩ ⟨some [1, 1]⟩ ∧
      Hyperplane.ratioDistance ⟨[1, -1], -1⟩ ⟨some [1, 1]⟩ = .ok (.fin 0) ∧
      (Except.ok (FVal.fin 0) : Except Exc FVal) ≠ .ok .pinf := by
  have hdot : hpDot ⟨[1, -1], -1⟩ ⟨some [1, 1]⟩ = 0 := by
    norm_num [hpDot, dotList, Point.coordList]
  refine ⟨hdot, by norm_num [hdot], ?_, by simp⟩
  rw [Hyperplane.ratioDistance, if_neg (by norm_num [Hyperplane.space_dimension,
    Point.dimension, Point.coordList]), hdot]
  norm_num [fdiv, stdMax0]

/-- Claim C3 amended: `ratioDistance(p)` throws DifferentDimensions on a
dimension mismatch; when `a·p ≠ 0` it returns `max(0, (b - a·p)/(a·p))`;
when `a·p = 0` the IEEE division by zero makes the result `+inf` if
`b > 0`, but `0` if `b < 0` (and NaN if `b = 0`), rather than `+inf`
whenever `b ≠ 0`. -/
theorem C3_amended (h : Hyperplane) (p : Point) :
    (h.space_dimension ≠ p.dimension → h.ratioDistance p = .error .differentDimensions) ∧
      (h.space_dimension = p.dimension →
        (hpDot h p ≠ 0 →
          h.ratioDistance p = .ok (.fin (max ((h.b - hpDot h p) / hpDot h p) 0))) ∧
        (hpDot h p = 0 → 0 < h.b → h.ratioDistance p = .ok .pinf) ∧
        (hpDot h p = 0 → h.b < 0 → h.ratioDistance p = .ok (.fin 0)) ∧
        (hpDot h p = 0 → h.b = 0 → h.ratioDistance p = .ok .nan)) := by
  constructor
  · intro hne
    rw [Hyperplane.ratioDistance, if_pos hne]
  · intro hdim
    refine ⟨fun hd0 => ?_, fun hd0 hb => ?_, fun hd0 hb => ?_, fun hd0 hb => ?_⟩ <;>
      rw [Hyperplane.ratioDistance, if_neg (by omega)]
    · rw [fdiv, if_neg hd0, stdMax0]
    · rw [hd0, fdiv, if_pos rfl, sub_zero, if_pos hb, stdMax0]
    · rw [hd0, fdiv, if_pos rfl, sub_zero, if_neg (by linarith), if_pos hb, stdMax0]
    · rw [hd0, hb, fdiv, if_pos rfl, sub_zero, if_neg (by norm_num), if_neg (by norm_num),
        stdMax0]

/-- Witness for C3 at the hyperplane `x1 + 0·x2 = 2` and the point
`(1,1)`: the dot product is nonzero and the result is the finite ratio
distance `1`. -/
theorem C3_witness :
    Hyperplane.space_dimension ⟨[1, 0], 2⟩ = Point.dimension ⟨some [1, 1]⟩ ∧
      hpDot ⟨[1, 0], 2⟩ ⟨some [1, 1]⟩ ≠ 0 ∧
      Hyperplane.ratioDistance ⟨[1, 0], 2⟩ ⟨some [1, 1]⟩ = .ok (.fin 1) := by
  have hdot : hpDot ⟨[1, 0], 2⟩ ⟨some [1, 1]⟩ = 1 := by
    norm_num [hpDot, dotList, Point.coordList]
  refine ⟨rfl, by norm_num [hdot], ?_⟩
  have h := ((C3_amended ⟨[1, 0], 2⟩ ⟨some [1, 1]⟩).2 rfl).1 (by norm_num [hdot])
  rw [h, hdot]
  norm_num

/-! ### Claim C7 -/

theorem cramer2_solves (a b c d B1 B2 : ℚ) (hD : b * c - a * d ≠ 0) :
    a * ((b * B2 - B1 * d) / (b * c - a * d)) +
        b * (if b ≠ 0 then (B1 - a * ((b * B2 - B1 * d) / (b * c - a * d))) / b
          else (B2 - c * ((b * B2 - B1 * d) / (b * c - a * d))) / d) = B1 ∧
      c * ((b * B2 - B1 * d) / (b * c - a * d)) +
        d * (if b ≠ 0 then (B1 - a * ((b * B2 - B1 * d) / (b * c - a * d))) / b
          else (B2 - c * ((b * B2 - B1 * d) / (b * c - a * d))) / d) = B2 := by
  by_cases hb : b = 0
  · subst hb
    have ha : a ≠ 0 := fun h0 => hD (by rw [h0]; ring)
    have hd : d ≠ 0 := fun h0 => hD (by rw [h0]; ring)
    rw [if_neg (by simp)]
    constructor
    · field_simp
      ring
    · field_simp
      ring
  · rw [if_pos hb]
    constructor
    · field_simp
      ring
    · field_simp
      ring



/-- Claim C7: `intersection` throws Not2DHyperplanes exactly when either
hyperplane is not 2-dimensional, throws ParallelHyperplanes exactly when
both are 2-dimensional and parallel, and otherwise returns a 2D point
satisfying both hyperplane equations. -/
theorem C7_intersection (h1 h2 : Hyperplane) :
    (h1.intersection h2 = .error .not2DHyperplanes ↔
      (h1.space_dimension ≠ 2 ∨ h2.space_dimension ≠ 2)) ∧
      (h1.intersection h2 = .error .parallelHyperplanes ↔
        (h1.space_dimension = 2 ∧ h2.space_dimension = 2 ∧ h1.IsParallel h2)) ∧
      (∀ p, h1.intersection h2 = .ok p → p.dimension = 2 ∧
        dotList h1.coefficients p.coordList = h1.b ∧
        dotList h2.coefficients p.coordList = h2.b) := by
  by_cases hdim : h1.space_dimension ≠ 2 ∨ h2.space_dimension ≠ 2
  · rw [Hyperplane.intersection, if_pos hdim]
    refine ⟨by simp [hdim], ?_, by simp⟩
    constructor
    · intro hc
      exact absurd hc (by simp)
    · rintro ⟨hd1, hd2, -⟩
      rcases hdim with hc | hc
      · exact absurd hd1 hc
      · exact absurd hd2 hc
  · push_neg at hdim
    obtain ⟨hd1, hd2⟩ := hdim
    by_cases hpar : h1.IsParallel h2
    · rw [Hyperplane.intersection, if_neg (by omega), if_pos hpar]
      exact ⟨by simp [hd1, hd2], by simp [hd1, hd2, hpar], by simp⟩
    · rw [Hyperplane.intersection, if_neg (by omega), if_neg hpar]
      refine ⟨by simp [hd1, hd2], by simp [hpar], ?_⟩
      intro p hp
      obtain ⟨co1, B1⟩ := h1
      obtain ⟨co2, B2⟩ := h2
      obtain ⟨a, b, hab⟩ := List.length_eq_two.mp hd1
      obtain ⟨c, d, hcd⟩ := List.length_eq_two.mp hd2
      subst hab hcd
      simp only [Hyperplane.coeff, Hyperplane.b, List.getD_cons_zero, List.getD_cons_succ]
        at hp hpar ⊢
      have hD : b * c - a * d ≠ 0 := by
        intro h0
        apply hpar
        refine ⟨by omega, fun i hi => ?_⟩
        simp only [Hyperplane.space_dimension, List.length_cons, List.length_nil] at hi
        interval_cases i <;>
          simp only [Hyperplane.coeff, List.getD_cons_zero, List.getD_cons_succ]
        · ring
        · linarith
      have hp' : p = ⟨some [(b * B2 - B1 * d) / (b * c - a * d),
          if b ≠ 0 then (B1 - a * ((b * B2 - B1 * d) / (b * c - a * d))) / b
          else (B2 - c * ((b * B2 - B1 * d) / (b * c - a * d))) / d]⟩ :=
        (Except.ok.inj hp).symm
      subst hp'
      have halg := cramer2_solves a b c d B1 B2 hD
      refine ⟨rfl, ?_, ?_⟩ <;>
        simp only [dotList, Point.coordList, Option.getD_some, List.zipWith,
          List.sum_cons, List.sum_nil, add_zero]
      · exact halg.1
      · exact halg.2

/-- Witness for C7 at the hyperplanes `x1 - x2 = 0` and `5·x1 + 2·x2 = 0`
(from the repository's own HyperplaneTest): the intersection point
satisfies both equations. -/
theorem C7_witness :
    ∀ p, Hyperplane.intersection ⟨[1, -1], 0⟩ ⟨[5, 2], 0⟩ = .ok p →
      p.dimension = 2 ∧ dotList [1, -1] p.coordList = 0 ∧
        dotList [5, 2] p.coordList = 0 :=
  fun p hp => (C7_intersection ⟨[1, -1], 0⟩ ⟨[5, 2], 0⟩).2.2 p hp

/-! ### Claims C10 and C8 -/

theorem lexLtList_asymm : ∀ (l1 l2 : List ℚ),
    lexLtList l1 l2 = true → lexLtList l2 l1 = false
  | [], l2 => by cases l2 <;> intro h <;> simp [lexLtList] at h ⊢
  | _ :: _, [] => by intro h; simp [lexLtList] at h
  | a :: as, b :: bs => by
    intro h
    rw [lexLtList] at h ⊢
    by_cases hab : a < b
    · rw [if_neg (by linarith), if_pos hab]
    · rw [if_neg hab] at h
      by_cases hba : b < a
      · rw [if_pos hba] at h
        exact absurd h (by simp)
      · rw [if_neg hba] at h
        rw [if_neg hba, if_neg hab]
        exact lexLtList_asymm as bs h

theorem lexLtList_eq : ∀ (l1 l2 : List ℚ), l1.length = l2.length →
    lexLtList l1 l2 = false → lexLtList l2 l1 = false → l1 = l2
  | [], [] => fun _ _ _ => rfl
  | [], _ :: _ => by intro h; simp at h
  | _ :: _, [] => by intro h; simp at h
  | a :: as, b :: bs => by
    intro hlen h12 h21
    rw [lexLtList] at h12 h21
    by_cases hab : a < b
    · rw [if_pos hab] at h12
      exact absurd h12 (by simp)
    · rw [if_neg hab] at h12
      by_cases hba : b < a
      · rw [if_pos hba] at h21
        exact absurd h21 (by simp)
      · rw [if_neg hba] at h12
        rw [if_neg hba, if_neg hab] at h21
        have hab' : a = b := le_antisymm (not_lt.mp hba) (not_lt.mp hab)
        have ht := lexLtList_eq as bs (by simpa using hlen) h12 h21
        rw [hab', ht]

theorem Point.coords_eq_some (p : Point) (h : 0 < p.dimension) :
    p.coords = some p.coordList := by
  rcases hc : p.coords with - | l
  · rw [Point.dimension, Point.coordList, hc] at h
    simp at h
  · rw [Point.coordList, hc]
    rfl

/-- The two-element `std::set<Point>` holds the two distinct points in one
of the two orders. -/
theorem setOfPoints_pair (p1 p2 : Point) (hne : p1.coords ≠ p2.coords)
    (hd : p1.dimension = p2.dimension) (hpos : 0 < p1.dimension) :
    (setOfPoints [p1, p2] = [p1, p2] ∧ setOfPoints [p2, p1] = [p1, p2]) ∨
      (setOfPoints [p1, p2] = [p2, p1] ∧ setOfPoints [p2, p1] = [p2, p1]) := by
  have hs12 : setOfPoints [p1, p2] = insertPointSorted p2 [p1] := rfl
  have hs21 : setOfPoints [p2, p1] = insertPointSorted p1 [p2] := rfl
  by_cases h12 : p1.lexLt p2 = true
  · have h21 : p2.lexLt p1 = false := lexLtList_asymm _ _ h12
    left
    rw [hs12, hs21]
    constructor
    · simp [insertPointSorted, h21, h12]
    · simp [insertPointSorted, h12]
  · have h12' : p1.lexLt p2 = false := by
      simpa using h12
    by_cases h21 : p2.lexLt p1 = true
    · right
      rw [hs12, hs21]
      constructor
      · simp [insertPointSorted, h21]
      · simp [insertPointSorted, h12', h21]
    · exfalso
      have h21' : p2.lexLt p1 = false := by
        simpa using h21
      apply hne
      have hll : p1.coordList = p2.coordList := lexLtList_eq _ _ hd h12' h21'
      rw [Point.coords_eq_some p1 hpos, Point.coords_eq_some p2 (hd ▸ hpos), hll]

/-- `init` on a sorted pair of 2D points produces a line through both. -/
theorem init_pair_through (q1 q2 : Point) (hd1 : q1.dimension = 2) (hd2 : q2.dimension = 2) :
    ∃ h, Hyperplane.init [q1, q2] = .ok h ∧
      dotList h.coefficients q1.coordList = h.b ∧
      dotList h.coefficients q2.coordList = h.b := by
  obtain ⟨x1, y1, hq1⟩ := List.length_eq_two.mp hd1
  obtain ⟨x2, y2, hq2⟩ := List.length_eq_two.mp hd2
  rw [Hyperplane.init, if_neg (by omega)]
  simp only [hq1, hq2, List.getD_cons_zero, List.getD_cons_succ]
  by_cases hy : y1 = y2
  · rw [if_neg (not_not_intro hy)]
    refine ⟨⟨[0, 1], y1⟩, rfl, ?_, ?_⟩ <;>
      simp [dotList, hq1, hq2, hy]
  · rw [if_pos hy]
    have hsub : y1 - y2 ≠ 0 := sub_ne_zero_of_ne hy
    refine ⟨_, rfl, ?_, ?_⟩ <;>
      simp only [dotList, hq1, hq2, List.zipWith, List.sum_cons, List.sum_nil, add_zero,
        Hyperplane.b]
    · ring
    · field_simp
      ring

/-- Claim C10: the two-point Hyperplane constructor is symmetric in its
arguments — the points pass through a lexicographically ordered
`std::set` before the line is derived. -/
theorem C10_twoPointSymmetric (p1 p2 : Point) (hne : p1.coords ≠ p2.coords)
    (h1 : p1.dimension = 2) (h2 : p2.dimension = 2) :
    Hyperplane.ofTwoPoints p1 p2 = Hyperplane.ofTwoPoints p2 p1 := by
  rw [Hyperplane.ofTwoPoints, Hyperplane.ofTwoPoints,
    if_neg hne, if_neg (by omega), if_neg (fun hc => hne hc.symm),
    if_neg (by omega)]
  rcases setOfPoints_pair p1 p2 hne (by omega) (by omega) with ⟨ha, hb⟩ | ⟨ha, hb⟩ <;>
    rw [ha, hb]

/-- Witness for C10 at the concrete distinct 2D points `(1,5)` and
`(5,1)`. -/
theorem C10_witness :
    Point.coords ⟨some [1, 5]⟩ ≠ Point.coords ⟨some [5, 1]⟩ ∧
      Hyperplane.ofTwoPoints ⟨some [1, 5]⟩ ⟨some [5, 1]⟩ =
        Hyperplane.ofTwoPoints ⟨some [5, 1]⟩ ⟨some [1, 5]⟩ := by
  have hne : (⟨some [1, 5]⟩ : Point).coords ≠ (⟨some [5, 1]⟩ : Point).coords := by
    norm_num
  exact ⟨hne, C10_twoPointSymmetric _ _ hne rfl rfl⟩

/-- Claim C8 (code bug evaluation): the two-point constructor does build a
line through both given distinct 2D points, but the Point-range
constructor fails its internal assert for the three affinely independent
3D points `(1,0,0)`, `(0,1,0)`, `(0,0,1)` taken from the repository's own
HyperplaneTest, which expects the hyperplane `x1 + x2 + x3 = 1`: `init`
"temporarily works only for two points". -/
theorem C8_pointConstructors :
    (∀ p1 p2 : Point, p1.coords ≠ p2.coords → p1.dimension = 2 → p2.dimension = 2 →
      ∃ h, Hyperplane.ofTwoPoints p1 p2 = .ok h ∧
        dotList h.coefficients p1.coordList = h.b ∧
        dotList h.coefficients p2.coordList = h.b) ∧
      Hyperplane.ofPoints [⟨some [1, 0, 0]⟩, ⟨some [0, 1, 0]⟩, ⟨some [0, 0, 1]⟩] =
        .error .assertionFailure := by
  constructor
  · intro p1 p2 hne h1 h2
    rw [Hyperplane.ofTwoPoints, if_neg hne, if_neg (by omega)]
    rcases setOfPoints_pair p1 p2 hne (by omega) (by omega) with ⟨ha, -⟩ | ⟨ha, -⟩
    · rw [ha]
      exact init_pair_through p1 p2 h1 h2
    · rw [ha]
      obtain ⟨h, hh, e2, e1⟩ := init_pair_through p2 p1 h2 h1
      exact ⟨h, hh, e1, e2⟩
  · rw [Hyperplane.ofPoints]
    have hset : setOfPoints [⟨some [1, 0, 0]⟩, ⟨some [0, 1, 0]⟩, ⟨some [0, 0, 1]⟩] =
        [⟨some [0, 0, 1]⟩, ⟨some [0, 1, 0]⟩, ⟨some [1, 0, 0]⟩] := by
      norm_num [setOfPoints, insertPointSorted, Point.lexLt, lexLtList, Point.coordList]
    rw [hset]
    rfl

/-! ### Claim C4 -/

/-- Claim C4: `Facet::ratioDistance(p)` throws NullObject for a null `p`,
DifferentDimensions on a dimension mismatch, NotStrictlyPositivePoint for
a not strictly positive `p`, InfiniteRatioDistance exactly when `n·p = 0`
and `n·p` differs from the offset `n·v0`, and otherwise returns
`max(0, (offset - n·p)/(n·p))`, with result `0` when `n·p` equals the
offset. -/
theorem C4_facetRatioDistance (f : Facet) (p : Point) (hd : 1 ≤ f.spaceDimension) :
    (p.isNull = true → f.ratioDistance p = .error .nullObject) ∧
      (p.isNull = false → f.spaceDimension ≠ p.dimension →
        f.ratioDistance p = .error .differentDimensions) ∧
      (p.isNull = false → f.spaceDimension = p.dimension → ¬ p.IsStrictlyPositive →
        f.ratioDistance p = .error .notStrictlyPositivePoint) ∧
      (p.isNull = false → f.spaceDimension = p.dimension → p.IsStrictlyPositive →
        ((f.ratioDistance p = .error .infiniteRatioDistance ↔
          (facetDot f.spaceDimension f.normal p = 0 ∧
            facetDot f.spaceDimension f.normal p ≠
              facetOffset f.spaceDimension f.vertices f.normal)) ∧
        (facetDot f.spaceDimension f.normal p =
            facetOffset f.spaceDimension f.vertices f.normal →
          f.ratioDistance p = .ok 0) ∧
        (facetDot f.spaceDimension f.normal p ≠
            facetOffset f.spaceDimension f.vertices f.normal →
          facetDot f.spaceDimension f.normal p ≠ 0 →
          f.ratioDistance p = .ok
            (max ((facetOffset f.spaceDimension f.vertices f.normal -
              facetDot f.spaceDimension f.normal p) /
                facetDot f.spaceDimension f.normal p) 0)))) := by
  rw [Facet.ratioDistance]
  refine ⟨fun hn => ?_, fun hn hne => ?_, fun hn heq hsp => ?_, fun hn heq hsp => ?_⟩
  · rw [facetRatioDistance, if_pos hn]
  · rw [facetRatioDistance, if_neg (by simp [hn]), if_pos hne]
  · rw [facetRatioDistance, if_neg (by simp [hn]), if_neg (by omega), if_pos hsp]
  · have hred : facetRatioDistance f.spaceDimension f.vertices f.normal p =
        (if facetDot f.spaceDimension f.normal p =
            facetOffset f.spaceDimension f.vertices f.normal then Except.ok 0
          else if facetDot f.spaceDimension f.normal p = 0 then
            Except.error Exc.infiniteRatioDistance
          else Except.ok (max ((facetOffset f.spaceDimension f.vertices f.normal -
            facetDot f.spaceDimension f.normal p) /
              facetDot f.spaceDimension f.normal p) 0)) := by
      rw [facetRatioDistance, if_neg (by simp [hn]), if_neg (by omega),
        if_neg (not_not_intro hsp), if_neg (by omega)]
    by_cases hde : facetDot f.spaceDimension f.normal p =
        facetOffset f.spaceDimension f.vertices f.normal
    · rw [hred, if_pos hde]
      exact ⟨⟨fun hc => absurd hc (by simp), fun hc => absurd hde hc.2⟩,
        fun _ => rfl, fun hne _ => absurd hde hne⟩
    · by_cases h0 : facetDot f.spaceDimension f.normal p = 0
      · rw [hred, if_neg hde, if_pos h0]
        exact ⟨⟨fun _ => ⟨h0, hde⟩, fun _ => rfl⟩, fun hc => absurd hc hde,
          fun _ hc => absurd h0 hc⟩
      · rw [hred, if_neg hde, if_neg h0]
        exact ⟨⟨fun hc => absurd hc (by simp), fun hc => absurd hc.1 h0⟩,
          fun hc => absurd hc hde, fun _ _ => rfl⟩

/-! ### Claim C1 -/

/-- Any facet produced by either constructor stores exactly the pair
computed by
`computeAndSetLocalApproximationErrorUpperBoundAndIsBoundaryFacet`. -/
theorem constructed_boundAndFlag (f : Facet)
    (hc : (∃ vs pref, Facet.ofVertices vs pref = .ok f) ∨
      (∃ vs nrm, Facet.ofVerticesAndNormal vs nrm = .ok f)) :
    computeBoundAndFlag f.spaceDimension f.vertices f.normal =
      .ok (f.localApproximationErrorUpperBound, f.isBoundaryFacet) := by
  rcases hc with ⟨vs, pref, hok⟩ | ⟨vs, nrm, hok⟩
  · rw [Facet.ofVertices] at hok
    split at hok
    · exact absurd hok (by simp)
    · split at hok
      · exact absurd hok (by simp)
      · split at hok
        · exact absurd hok (by simp)
        · rename_i bound flag heq
          rw [← Except.ok.inj hok]
          exact heq
  · rw [Facet.ofVerticesAndNormal] at hok
    split at hok
    · exact absurd hok (by simp)
    · split at hok
      · exact absurd hok (by simp)
      · split at hok
        · exact absurd hok (by simp)
        · rename_i bound flag heq
          rw [← Except.ok.inj hok]
          exact heq

/-- Case analysis of the stored (bound, flag) pair. -/
theorem boundAndFlag_cases (d : ℕ) (vs : List PointAndSolution) (normal : List ℚ)
    (bound : ℚ) (flag : Bool)
    (h : computeBoundAndFlag d vs normal = .ok (bound, flag)) :
    (∃ ldp, computeLowerDistalPoint d vs = .ok ldp ∧ ldp.isNull = false ∧
      ldp.IsStrictlyPositive ∧ facetRatioDistance d vs normal ldp = .ok bound ∧
      flag = false) ∨
    (∃ ldp, computeLowerDistalPoint d vs = .ok ldp ∧ ldp.isNull = false ∧
      ¬ ldp.IsStrictlyPositive ∧ bound = -1 ∧ flag = true) ∨
    (∃ ldp, computeLowerDistalPoint d vs = .ok ldp ∧ ldp.isNull = true ∧
      bound = -2 ∧ flag = true) := by
  rw [computeBoundAndFlag] at h
  split at h
  · exact absurd h (by simp)
  · rename_i ldp hldp
    split at h
    · rename_i hnull
      split at h
      · rename_i hsp
        split at h
        · exact absurd h (by simp)
        · rename_i b' hrd
          left
          injection h with h2
          injection h2 with hb hf
          exact ⟨ldp, hldp, hnull, hsp, hb ▸ hrd, hf.symm⟩
      · rename_i hsp
        right; left
        injection h with h2
        injection h2 with hb hf
        exact ⟨ldp, hldp, hnull, hsp, hb.symm, hf.symm⟩
    · rename_i hnull
      right; right
      injection h with h2
      injection h2 with hb hf
      refine ⟨ldp, hldp, ?_, hb.symm, hf.symm⟩
      revert hnull
      cases ldp.isNull <;> simp

/-- A successful `Facet::ratioDistance` result is nonnegative. -/
theorem facetRatioDistance_nonneg (d : ℕ) (vs : List PointAndSolution)
    (normal : List ℚ) (p : Point) (q : ℚ)
    (h : facetRatioDistance d vs normal p = .ok q) : 0 ≤ q := by
  rw [facetRatioDistance] at h
  split at h
  · exact absurd h (by simp)
  · split at h
    · exact absurd h (by simp)
    · split at h
      · exact absurd h (by simp)
      · split at h
        · exact absurd h (by simp)
        · split at h
          · rw [← Except.ok.inj h]
          · split at h
            · exact absurd h (by simp)
            · rw [← Except.ok.inj h]
              exact le_max_right _ _

/-- Claim C1: for every facet successfully constructed by either
constructor, the boundary flag is false iff the LDP exists and is
strictly positive; a non-boundary facet stores exactly
`ratioDistance(LDP)`, which is nonnegative; the sentinels are `-1` (LDP
exists, not strictly positive) and `-2` (no unique LDP); and
`getLocalApproximationErrorUpperBound` throws BoundaryFacetException
exactly when the facet is a boundary facet. -/
theorem C1_facetInvariants (f : Facet)
    (hc : (∃ vs pref, Facet.ofVertices vs pref = .ok f) ∨
      (∃ vs nrm, Facet.ofVerticesAndNormal vs nrm = .ok f)) :
    (f.isBoundaryFacet = false ↔
      ∃ ldp, computeLowerDistalPoint f.spaceDimension f.vertices = .ok ldp ∧
        ldp.isNull = false ∧ ldp.IsStrictlyPositive) ∧
      (f.isBoundaryFacet = false →
        ∃ ldp, computeLowerDistalPoint f.spaceDimension f.vertices = .ok ldp ∧
          f.ratioDistance ldp = .ok f.localApproximationErrorUpperBound ∧
          0 ≤ f.localApproximationErrorUpperBound) ∧
      (∀ ldp, computeLowerDistalPoint f.spaceDimension f.vertices = .ok ldp →
        ldp.isNull = false → ¬ ldp.IsStrictlyPositive →
        f.isBoundaryFacet = true ∧ f.localApproximationErrorUpperBound = -1) ∧
      (∀ ldp, computeLowerDistalPoint f.spaceDimension f.vertices = .ok ldp →
        ldp.isNull = true →
        f.isBoundaryFacet = true ∧ f.localApproximationErrorUpperBound = -2) ∧
      (f.getLocalApproximationErrorUpperBound = .error .boundaryFacet ↔
        f.isBoundaryFacet = true) ∧
      (f.isBoundaryFacet = false →
        f.getLocalApproximationErrorUpperBound = .ok f.localApproximationErrorUpperBound) := by
  have hbf := constructed_boundAndFlag f hc
  have hcases := boundAndFlag_cases _ _ _ _ _ hbf
  refine ⟨?_, ?_, ?_, ?_, ?_, ?_⟩
  · constructor
    · intro hflag
      rcases hcases with ⟨ldp, hldp, hnull, hsp, -, -⟩ | ⟨ldp, -, -, -, -, hf⟩ |
        ⟨ldp, -, -, -, hf⟩
      · exact ⟨ldp, hldp, hnull, hsp⟩
      · rw [hflag] at hf
        exact absurd hf (by simp)
      · rw [hflag] at hf
        exact absurd hf (by simp)
    · rintro ⟨ldp, hldp, hnull, hsp⟩
      rcases hcases with ⟨ldp', -, -, -, -, hf⟩ | ⟨ldp', hldp', hnull', hsp', -, -⟩ |
        ⟨ldp', hldp', hnull', -, -⟩
      · exact hf
      · rw [hldp] at hldp'
        rw [← Except.ok.inj hldp'] at hsp'
        exact absurd hsp hsp'
      · rw [hldp] at hldp'
        rw [← Except.ok.inj hldp'] at hnull'
        rw [hnull] at hnull'
        exact absurd hnull' (by simp)
  · intro hflag
    rcases hcases with ⟨ldp, hldp, -, -, hrd, -⟩ | ⟨ldp, -, -, -, -, hf⟩ |
      ⟨ldp, -, -, -, hf⟩
    · exact ⟨ldp, hldp, hrd,
        facetRatioDistance_nonneg _ _ _ _ _ hrd⟩
    · rw [hflag] at hf
      exact absurd hf (by simp)
    · rw [hflag] at hf
      exact absurd hf (by simp)
  · intro ldp hldp hnull hsp
    rcases hcases with ⟨ldp', hldp', hnull', hsp', -, -⟩ | ⟨ldp', hldp', -, -, hb, hf⟩ |
      ⟨ldp', hldp', hnull', -, -⟩
    · rw [hldp] at hldp'
      rw [← Except.ok.inj hldp'] at hsp'
      exact absurd hsp' hsp
    · exact ⟨hf, hb⟩
    · rw [hldp] at hldp'
      rw [← Except.ok.inj hldp'] at hnull'
      rw [hnull] at hnull'
      exact absurd hnull' (by simp)
  · intro ldp hldp hnull
    rcases hcases with ⟨ldp', hldp', hnull', -, -, -⟩ | ⟨ldp', hldp', hnull', -, -, -⟩ |
      ⟨ldp', hldp', -, hb, hf⟩
    · rw [hldp] at hldp'
      rw [← Except.ok.inj hldp'] at hnull'
      rw [hnull] at hnull'
      exact absurd hnull' (by simp)
    · rw [hldp] at hldp'
      rw [← Except.ok.inj hldp'] at hnull'
      rw [hnull] at hnull'
      exact absurd hnull' (by simp)
    · exact ⟨hf, hb⟩
  · rw [Facet.getLocalApproximationErrorUpperBound]
    constructor
    · intro hh
      by_contra hflag
      rw [if_neg (by simpa using hflag)] at hh
      exact absurd hh (by simp)
    · intro hflag
      rw [if_pos hflag]
  · intro hflag
    rw [Facet.getLocalApproximationErrorUpperBound, if_neg (by simp [hflag])]

/-! ### Claim C2 -/

/-- Claim C2: when the vertices carry weight vectors of length `d`,
`computeLowerDistalPoint` returns the unique solution of `W·x = c`
(row `i` of `W` the `i`-th weight vector, `c_i = w_i·v_i`) whenever that
solution exists and is unique, and the null Point whenever the system has
no solution or infinitely many. -/
theorem C2_computeLowerDistalPoint (d : ℕ) (vs : List PointAndSolution)
    (hlen : vs.length = d) (hw : ∀ v ∈ vs, v.weightsUsed.length = d) :
    (∀ x : Fin d → ℚ, (ldpMatrix d vs).mulVec x = ldpRhs d vs →
      (∀ y, (ldpMatrix d vs).mulVec y = ldpRhs d vs → y = x) →
      computeLowerDistalPoint d vs = .ok ⟨some ((List.finRange d).map x)⟩) ∧
      ((¬ ∃ x, (ldpMatrix d vs).mulVec x = ldpRhs d vs ∧
          ∀ y, (ldpMatrix d vs).mulVec y = ldpRhs d vs → y = x) →
        computeLowerDistalPoint d vs = .ok Point.null) := by
  have hassert : (vs.any fun v => decide (v.weightsUsed.length ≠ d)) = false := by
    rw [List.any_eq_false]
    intro v hv
    simp [hw v hv]
  constructor
  · intro x hx hu
    have hdet : (ldpMatrix d vs).det ≠ 0 := fun h0 =>
      not_unique_of_det_eq_zero _ _ h0 ⟨x, hx, hu⟩
    have hsolve := solveSquare_some_of_det_ne_zero (ldpMatrix d vs) (ldpRhs d vs) hdet
    have hs := solveSquare_mulVec (ldpMatrix d vs) (ldpRhs d vs) _ hsolve
    have hsx := hu _ hs
    rw [computeLowerDistalPoint, if_neg (by simp only [hassert]; simp), hsolve, hsx]
  · intro hnu
    have hdet : (ldpMatrix d vs).det = 0 := by
      by_contra h0
      apply hnu
      have hsolve := solveSquare_some_of_det_ne_zero (ldpMatrix d vs) (ldpRhs d vs) h0
      have hs := solveSquare_mulVec (ldpMatrix d vs) (ldpRhs d vs) _ hsolve
      exact ⟨_, hs, fun y hy =>
        mulVec_inj_of_det_ne_zero _ h0 y _ (hy.trans hs.symm)⟩
    rw [computeLowerDistalPoint, if_neg (by simp only [hassert]; simp),
      solveSquare_none_of_det_eq_zero _ _ hdet]

/-! ### Claim C5 -/


/-- Claim C5 amended: a d = 3 facet built by the compute-normal
constructor from three collinear vertices gets the all-zero normal
vector; collinearity does not force `isBoundaryFacet()` (which depends
only on the vertices' weight-vector system), as the counterexample
shows. -/
theorem C5_amended (vs : List PointAndSolution) (pref : Bool) (f : Facet)
    (hlen : vs.length = 3)
    (hcol : Collinear3 (vs.getD 0 padDefault).point.coordList
      (vs.getD 1 padDefault).point.coordList (vs.getD 2 padDefault).point.coordList)
    (hok : Facet.ofVertices vs pref = .ok f) :
    f.normal = [0, 0, 0] := by
  obtain ⟨s, t, hst, hc⟩ := hcol
  have hd : (vs.headD padDefault).dimension = 3 := by
    rw [Facet.ofVertices] at hok
    by_contra hne
    rw [if_pos (by omega)] at hok
    exact absurd hok (by simp)
  have hdets : ∀ i < 3, detQ 3 (Matrix.of fun r c : Fin 3 =>
      if (c : ℕ) = i then 1 else (vs.getD r padDefault).point.coordList.getD c 0) = 0 := by
    intro i hi
    rw [detQ_eq_det]
    rw [← Matrix.det_transpose]
    apply Matrix.exists_mulVec_eq_zero_iff.mp
    refine ⟨![-(s + t), s, t], ?_, ?_⟩
    · intro hzero
      rcases not_and_or.mp hst with hs | ht
      · exact hs (by simpa using congrFun hzero 1)
      · exact ht (by simpa using congrFun hzero 2)
    · funext k
      simp only [Matrix.mulVec, Matrix.dotProduct, Fin.sum_univ_three,
        Matrix.transpose_apply, Matrix.of_apply, Pi.zero_apply,
        Matrix.cons_val_zero, Matrix.cons_val_one, Matrix.head_cons,
        Matrix.cons_val_two, Matrix.tail_cons, Fin.val_zero, Fin.val_one, Fin.val_two]
      by_cases hk : (k : ℕ) = i
      · simp only [if_pos hk]
        ring
      · simp only [if_neg hk]
        have hck := hc (k : ℕ) k.isLt
        linear_combination hck
  have hnormal : computeFacetNormal 3 vs pref = [0, 0, 0] := by
    rw [computeFacetNormal]
    have hrange : List.range 3 = [0, 1, 2] := rfl
    rw [hrange]
    simp only [List.map_cons, List.map_nil]
    rw [hdets 0 (by norm_num), hdets 1 (by norm_num), hdets 2 (by norm_num)]
    split
    · norm_num
    · rfl
  rw [Facet.ofVertices] at hok
  rw [hd] at hok
  split at hok
  · exact absurd hok (by simp)
  · split at hok
    · exact absurd hok (by simp)
    · split at hok
      · exact absurd hok (by simp)
      · rw [← Except.ok.inj hok]
        exact hnormal

/-! ### Concrete evaluations for the witnesses -/

theorem vsW_det : detQ 2 (ldpMatrix 2 vsW) = 1 := by
  rw [detQ_two]
  norm_num [ldpMatrix, Matrix.of_apply, vsW, padDefault]

theorem vsW_ldp : computeLowerDistalPoint 2 vsW = .ok ⟨some [1, 1]⟩ := by
  have h0 : detQ 2 (updateColQ (ldpMatrix 2 vsW) 0 (ldpRhs 2 vsW)) = 1 := by
    rw [detQ_two]
    norm_num [updateColQ, ldpMatrix, ldpRhs, vsW, padDefault, dotList,
      Point.coordList, Matrix.of_apply]
  have h1 : detQ 2 (updateColQ (ldpMatrix 2 vsW) 1 (ldpRhs 2 vsW)) = 1 := by
    rw [detQ_two]
    norm_num [updateColQ, ldpMatrix, ldpRhs, vsW, padDefault, dotList,
      Point.coordList, Matrix.of_apply]
  rw [computeLowerDistalPoint, if_neg (by decide), solveSquare,
    if_neg (by rw [vsW_det]; norm_num),
    show List.finRange 2 = [0, 1] from rfl]
  simp only [List.map_cons, List.map_nil]
  rw [h0, h1, vsW_det]
  norm_num

theorem vsW_ratio : facetRatioDistance 2 vsW [4, 4] ⟨some [1, 1]⟩ = .ok 2 := by
  have hdot : facetDot 2 [4, 4] ⟨some [1, 1]⟩ = 8 := by
    norm_num [facetDot, Point.coordList, Finset.sum_range_succ]
  have hoff : facetOffset 2 vsW [4, 4] = 24 := by
    norm_num [facetOffset, vsW, padDefault, Point.coordList, Finset.sum_range_succ]
  rw [facetRatioDistance, if_neg (by simp [Point.isNull]),
    if_neg (by norm_num [Point.dimension, Point.coordList]),
    if_neg (not_not_intro (by norm_num [Point.IsStrictlyPositive, Point.coordList])),
    if_neg (by norm_num), hdot, hoff, if_neg (by norm_num), if_neg (by norm_num)]
  norm_num

theorem vsW_normal : computeFacetNormal 2 vsW true = [4, 4] := by
  have h0 : detQ 2 (Matrix.of fun r c : Fin 2 =>
      if (c : ℕ) = 0 then 1 else (vsW.getD r padDefault).point.coordList.getD c 0) =
        -4 := by
    rw [detQ_two]
    norm_num [Matrix.of_apply, vsW, padDefault, Point.coordList]
  have h1 : detQ 2 (Matrix.of fun r c : Fin 2 =>
      if (c : ℕ) = 1 then 1 else (vsW.getD r padDefault).point.coordList.getD c 0) =
        -4 := by
    rw [detQ_two]
    norm_num [Matrix.of_apply, vsW, padDefault, Point.coordList]
  rw [computeFacetNormal, show List.range 2 = [0, 1] from rfl]
  simp only [List.map_cons, List.map_nil]
  rw [h0, h1, if_pos (by norm_num)]
  norm_num

theorem computeBoundAndFlag_posLdp (d : ℕ) (vs : List PointAndSolution)
    (normal : List ℚ) (ldp : Point) (bound : ℚ)
    (hldp : computeLowerDistalPoint d vs = .ok ldp)
    (hnull : ldp.isNull = false) (hsp : ldp.IsStrictlyPositive)
    (hrd : facetRatioDistance d vs normal ldp = .ok bound) :
    computeBoundAndFlag d vs normal = .ok (bound, false) := by
  rw [computeBoundAndFlag, hldp]
  show (if ldp.isNull = false then
      if ldp.IsStrictlyPositive then
        match facetRatioDistance d vs normal ldp with
        | .error e => Except.error e
        | .ok bound => Except.ok (bound, false)
      else Except.ok (-1, true)
    else Except.ok (-2, true)) = Except.ok (bound, false)
  rw [if_pos hnull, if_pos hsp, hrd]

theorem vsW_bound : computeBoundAndFlag 2 vsW [4, 4] = .ok (2, false) :=
  computeBoundAndFlag_posLdp 2 vsW [4, 4] ⟨some [1, 1]⟩ 2 vsW_ldp rfl
    (by norm_num [Point.IsStrictlyPositive, Point.coordList]) vsW_ratio

theorem fW_eval : Facet.ofVertices vsW true = .ok fW := by
  rw [Facet.ofVertices,
    show (vsW.headD padDefault).dimension = 2 from rfl,
    if_neg (by norm_num [vsW]),
    show validateVertices 2 vsW = .ok () from rfl,
    vsW_normal, vsW_bound]
  rfl

/-- Witness for C1 at the concretely constructed facet `fW`. -/
theorem C1_witness :
    ((∃ vs pref, Facet.ofVertices vs pref = .ok fW) ∨
      (∃ vs nrm, Facet.ofVerticesAndNormal vs nrm = .ok fW)) ∧
      (fW.isBoundaryFacet = false ↔
        ∃ ldp, computeLowerDistalPoint fW.spaceDimension fW.vertices = .ok ldp ∧
          ldp.isNull = false ∧ ldp.IsStrictlyPositive) :=
  ⟨Or.inl ⟨vsW, true, fW_eval⟩,
    (C1_facetInvariants fW (Or.inl ⟨vsW, true, fW_eval⟩)).1⟩

/-- Witness for C2 at `vsC2`, whose weight matrix has two equal rows: the
system has no unique solution and the code returns the null Point. -/
theorem C2_witness :
    vsC2.length = 2 ∧ (∀ v ∈ vsC2, v.weightsUsed.length = 2) ∧
      computeLowerDistalPoint 2 vsC2 = .ok Point.null := by
  have hw : ∀ v ∈ vsC2, v.weightsUsed.length = 2 := by decide
  refine ⟨rfl, hw, ?_⟩
  apply (C2_computeLowerDistalPoint 2 vsC2 rfl hw).2
  rintro ⟨x, hx, hu⟩
  have hy1 : (ldpMatrix 2 vsC2).mulVec ![3, 0] = ldpRhs 2 vsC2 := by
    funext i
    fin_cases i <;>
      norm_num [ldpMatrix, ldpRhs, vsC2, padDefault, Matrix.mulVec, Matrix.dotProduct,
        Fin.sum_univ_two, dotList, Point.coordList, Matrix.of_apply]
  have hy2 : (ldpMatrix 2 vsC2).mulVec ![0, 3] = ldpRhs 2 vsC2 := by
    funext i
    fin_cases i <;>
      norm_num [ldpMatrix, ldpRhs, vsC2, padDefault, Matrix.mulVec, Matrix.dotProduct,
        Fin.sum_univ_two, dotList, Point.coordList, Matrix.of_apply]
  have h12 : (![3, 0] : Fin 2 → ℚ) = ![0, 3] := (hu _ hy1).trans (hu _ hy2).symm
  have h0 := congrFun h12 0
  norm_num at h0

/-- Witness for C4 at the facet `fW` and the strictly positive point
`(1,1)`: the dot product is `8`, the offset `24`, and the ratio distance
is `2`. -/
theorem C4_witness :
    1 ≤ fW.spaceDimension ∧ Facet.ratioDistance fW ⟨some [1, 1]⟩ = .ok 2 := by
  refine ⟨by norm_num [fW], ?_⟩
  have hfd : facetDot fW.spaceDimension fW.normal ⟨some [1, 1]⟩ = 8 := by
    show facetDot 2 [4, 4] ⟨some [1, 1]⟩ = 8
    norm_num [facetDot, Point.coordList, Finset.sum_range_succ]
  have hfo : facetOffset fW.spaceDimension fW.vertices fW.normal = 24 := by
    show facetOffset 2 vsW [4, 4] = 24
    norm_num [facetOffset, vsW, padDefault, Point.coordList, Finset.sum_range_succ]
  have h := ((C4_facetRatioDistance fW ⟨some [1, 1]⟩ (by norm_num [fW])).2.2.2
    rfl (by norm_num [fW, Point.dimension, Point.coordList])
    (by norm_num [Point.IsStrictlyPositive, Point.coordList])).2.2
    (by rw [hfd, hfo]; norm_num) (by rw [hfd]; norm_num)
  rw [h, hfd, hfo]
  norm_num

/-! ### Concrete evaluation of the collinear facet (claim C5) -/

theorem vsC5_det : detQ 3 (ldpMatrix 3 vsC5) = 1 := by
  rw [detQ_three]
  norm_num [ldpMatrix, Matrix.of_apply, vsC5, padDefault]

theorem vsC5_ldp : computeLowerDistalPoint 3 vsC5 = .ok ⟨some [1, 2, 3]⟩ := by
  have h0 : detQ 3 (updateColQ (ldpMatrix 3 vsC5) 0 (ldpRhs 3 vsC5)) = 1 := by
    rw [detQ_three]
    norm_num [updateColQ, ldpMatrix, ldpRhs, vsC5, padDefault, dotList,
      Point.coordList, Matrix.of_apply, Fin.ext_iff]
  have h1 : detQ 3 (updateColQ (ldpMatrix 3 vsC5) 1 (ldpRhs 3 vsC5)) = 2 := by
    rw [detQ_three]
    norm_num [updateColQ, ldpMatrix, ldpRhs, vsC5, padDefault, dotList,
      Point.coordList, Matrix.of_apply, Fin.ext_iff]
  have h2 : detQ 3 (updateColQ (ldpMatrix 3 vsC5) 2 (ldpRhs 3 vsC5)) = 3 := by
    rw [detQ_three]
    norm_num [updateColQ, ldpMatrix, ldpRhs, vsC5, padDefault, dotList,
      Point.coordList, Matrix.of_apply, Fin.ext_iff]
  rw [computeLowerDistalPoint, if_neg (by decide), solveSquare,
    if_neg (by rw [vsC5_det]; norm_num),
    show List.finRange 3 = [0, 1, 2] from rfl]
  simp only [List.map_cons, List.map_nil]
  rw [h0, h1, h2, vsC5_det]
  norm_num

theorem vsC5_ratio : facetRatioDistance 3 vsC5 [0, 0, 0] ⟨some [1, 2, 3]⟩ = .ok 0 := by
  have hdot : facetDot 3 [0, 0, 0] ⟨some [1, 2, 3]⟩ = 0 := by
    norm_num [facetDot, Point.coordList, Finset.sum_range_succ]
  have hoff : facetOffset 3 vsC5 [0, 0, 0] = 0 := by
    norm_num [facetOffset, vsC5, padDefault, Point.coordList, Finset.sum_range_succ]
  rw [facetRatioDistance, if_neg (by simp [Point.isNull]),
    if_neg (by norm_num [Point.dimension, Point.coordList]),
    if_neg (not_not_intro (by norm_num [Point.IsStrictlyPositive, Point.coordList])),
    if_neg (by norm_num), hdot, hoff, if_pos rfl]

theorem vsC5_normal : computeFacetNormal 3 vsC5 true = [0, 0, 0] := by
  have h0 : detQ 3 (Matrix.of fun r c : Fin 3 =>
      if (c : ℕ) = 0 then 1 else (vsC5.getD r padDefault).point.coordList.getD c 0) =
        0 := by
    rw [detQ_three]
    norm_num [Matrix.of_apply, vsC5, padDefault, Point.coordList]
  have h1 : detQ 3 (Matrix.of fun r c : Fin 3 =>
      if (c : ℕ) = 1 then 1 else (vsC5.getD r padDefault).point.coordList.getD c 0) =
        0 := by
    rw [detQ_three]
    norm_num [Matrix.of_apply, vsC5, padDefault, Point.coordList]
  have h2 : detQ 3 (Matrix.of fun r c : Fin 3 =>
      if (c : ℕ) = 2 then 1 else (vsC5.getD r padDefault).point.coordList.getD c 0) =
        0 := by
    rw [detQ_three]
    norm_num [Matrix.of_apply, vsC5, padDefault, Point.coordList]
  rw [computeFacetNormal, show List.range 3 = [0, 1, 2] from rfl]
  simp only [List.map_cons, List.map_nil]
  rw [h0, h1, h2, if_pos (by norm_num)]
  norm_num

theorem fC5_eval : Facet.ofVertices vsC5 true = .ok fC5 := by
  rw [Facet.ofVertices,
    show (vsC5.headD padDefault).dimension = 3 from rfl,
    if_neg (by norm_num [vsC5]),
    show validateVertices 3 vsC5 = .ok () from rfl,
    vsC5_normal,
    computeBoundAndFlag_posLdp 3 vsC5 [0, 0, 0] ⟨some [1, 2, 3]⟩ 0 vsC5_ldp rfl
      (by norm_num [Point.IsStrictlyPositive, Point.coordList]) vsC5_ratio]
  rfl

theorem vsC5_collinear :
    Collinear3 (vsC5.getD 0 padDefault).point.coordList
      (vsC5.getD 1 padDefault).point.coordList
      (vsC5.getD 2 padDefault).point.coordList := by
  refine ⟨2, -1, by norm_num, ?_⟩
  intro i hi
  interval_cases i <;> norm_num [vsC5, padDefault, Point.coordList]

/-- Counterexample to claim C5: the collinear vertices `(1,1,1)`,
`(2,2,2)`, `(3,3,3)` with axis-aligned weight vectors give an all-zero
normal, but the constructed facet has `isBoundaryFacet() = false` — the
boundary flag depends on the weight system (here the identity, LDP
`(1,2,3)`), not on collinearity. -/
theorem C5_counterexample :
    Collinear3 (vsC5.getD 0 padDefault).point.coordList
      (vsC5.getD 1 padDefault).point.coordList
      (vsC5.getD 2 padDefault).point.coordList ∧
      Facet.ofVertices vsC5 true = .ok fC5 ∧ fC5.isBoundaryFacet = false :=
  ⟨vsC5_collinear, fC5_eval, rfl⟩

/-- Witness for the amended C5 at the concrete collinear facet. -/
theorem C5_witness :
    vsC5.length = 3 ∧
      Collinear3 (vsC5.getD 0 padDefault).point.coordList
        (vsC5.getD 1 padDefault).point.coordList
        (vsC5.getD 2 padDefault).point.coordList ∧
      Facet.ofVertices vsC5 true = .ok fC5 ∧ fC5.normal = [0, 0, 0] :=
  ⟨rfl, vsC5_collinear, fC5_eval,
    C5_amended vsC5 true fC5 rfl vsC5_collinear fC5_eval⟩

end ParetoApprox
